import Mathlib

/-!
Shallow embedding of the Kassensystem-und-Shotcounter point-of-sale
application (src/app.py): product-catalog resolution, cart/checkout,
active-event registry, and the team/shot scoring engine, together with
theorems settling the specification claims about them.

Python strings are modelled as `String`, Python ints as `Int`, database
rows as Lean structures, and the database/session state as explicit
record values threaded through the operations.  Fields of raw JSON-ish
dicts are modelled as `Option`-typed fields (`none` = key absent), with
`Option (Option Int)` for int-coercible fields (`some none` = present
but the `int(...)` coercion raises).
-/

namespace Kassensystem

/-- Python `str.strip()` whitespace set (space, tab, newline, carriage
return, vertical tab, form feed). -/
def isPySpace (c : Char) : Bool :=
  c = Char.ofNat 32 || c = Char.ofNat 9 || c = Char.ofNat 10 ||
  c = Char.ofNat 13 || c = Char.ofNat 11 || c = Char.ofNat 12

/-- Python `str.strip()` on a character list. -/
def pyStripList (l : List Char) : List Char :=
  ((l.dropWhile isPySpace).reverse.dropWhile isPySpace).reverse

/-- Python `str.strip()`. -/
def pyStrip (s : String) : String :=
  (pyStripList s.toList).asString

/-- Python truthiness-based `a or b` on optional strings: `None` and the
empty string are falsy. -/
def pyOrStr (a b : Option String) : Option String :=
  match a with
  | some s => if s = "" then b else some s
  | none => b

/-- `ButtonConfig` dataclass from src/app.py. -/
structure ButtonConfig where
  name : String
  label : String
  price : Int
  css_class : String
  color : Option String := none
  category : String := "Standard"
  has_depot : Bool := false
  depot_price : Int := 2
  priority : Option Int := none
deriving DecidableEq

/-- `ButtonConfig.price_with_depot`: effective price = base price plus
depot surcharge when the product carries a depot. -/
def ButtonConfig.price_with_depot (b : ButtonConfig) : Int :=
  b.price + (if b.has_depot then b.depot_price else 0)

/-- The built-in `DEFAULT_BUTTONS` catalog (9 fixed products). -/
def DEFAULT_BUTTONS : List ButtonConfig :=
  [ { name := "Süssgetränke", label := "Süssgetränke", price := 6,
      css_class := "suess", color := some "#1f2a44", category := "Getränke" },
    { name := "Bier", label := "Bier / Mate / Red Bull / Smirnoff", price := 7,
      css_class := "bier", color := some "#193f8a", category := "Alkohol" },
    { name := "Wein", label := "Wein", price := 7,
      css_class := "wein", color := some "#8a1f6f", category := "Alkohol" },
    { name := "Weinflasche 0.7", label := "Weinflasche", price := 22,
      css_class := "flasche", color := some "#5b2d30", category := "Alkohol" },
    { name := "Drink 10", label := "Drink 10", price := 12,
      css_class := "gross", color := some "#2e4c3d", category := "Alkohol" },
    { name := "Depot rein", label := "Depot rein", price := -2,
      css_class := "depot", color := some "#374151", category := "Diverses" },
    { name := "Weinglassdepot", label := "Weinglas Depot", price := 2,
      css_class := "Weinglassdepot", color := some "#3f2d67", category := "Diverses" },
    { name := "Kaffee", label := "Kaffee", price := 3,
      css_class := "kaffee", color := some "#4b3322", category := "Getränke" },
    { name := "Shot", label := "Shot", price := 5,
      css_class := "shot", color := some "#7a1f2a", category := "Alkohol" } ]

/-- A raw item dict from an event's `kassensystem_settings["items"]`.
String-valued keys are `Option String` (`none` = key absent); `price`
and `priority` are `Option (Option Int)`: `none` = key absent,
`some none` = present but `int(...)` fails, `some (some n)` = coerces
to `n`.  `has_depot` records whether the stored value `is True`. -/
structure RawItem where
  name : Option String := none
  label : Option String := none
  price : Option (Option Int) := none
  css_class : Option String := none
  color : Option String := none
  category : Option String := none
  has_depot : Bool := false
  priority : Option (Option Int) := none
deriving DecidableEq

/-- An entry of the raw items list: either a dict or a non-dict value
(which both resolution and validation skip). -/
inductive RawEntry where
  | item (i : RawItem)
  | notDict
deriving DecidableEq

/-- An event's `kassensystem_settings` JSON blob, restricted to the keys
the catalog code reads.  `items = none` models an absent/non-list items
key; `depot_price` follows the `Option (Option Int)` coercion scheme. -/
structure KassSettings where
  items : Option (List RawEntry) := none
  depot_price : Option (Option Int) := none
  category_order : Option (List (Option String)) := none
  category_visibility : Option (List (String × Option (Bool × Bool))) := none
deriving DecidableEq

/-- Depot-price resolution shared by `resolve_button_config` and
`validate_and_normalize_buttons`: `int(settings.get("depot_price", 2))`
with coercion failures defaulting to 2, then clamped at 0. -/
def resolveDepotPrice (settings : Option KassSettings) : Int :=
  let raw : Int :=
    match settings with
    | some s =>
      match s.depot_price with
      | none => 2
      | some none => 2
      | some (some d) => d
    | none => 2
  if raw < 0 then 0 else raw

/-- `default_color_lookup` built in `resolve_button_config`: maps each
default button's `css_class` to its color (dict comprehension, later
entries overwrite earlier ones; the default css classes are distinct). -/
def default_color_lookup (css : String) : Option String :=
  match (DEFAULT_BUTTONS.filter (fun b => b.css_class = css)).getLast? with
  | some b => b.color
  | none => none

/-- One iteration of the `resolve_button_config` loop on a raw entry:
`none` when the body of the `try` raises (missing `name` key, missing
`price` key, price coercion failure, or a non-dict entry). -/
def resolveItem (depot : Int) : RawEntry → Option ButtonConfig
  | .notDict => none
  | .item i =>
    match i.name with
    | none => none
    | some name =>
      match i.price with
      | some (some price) =>
        some
          { name := name
            label := (pyOrStr i.label (some name)).getD name
            price := price
            css_class := i.css_class.getD "suess"
            color :=
              pyOrStr i.color
                (pyOrStr (default_color_lookup (i.css_class.getD ""))
                  (some "#1f2a44"))
            category := i.category.getD "Standard"
            has_depot := i.has_depot
            depot_price := depot
            priority := (i.priority.getD none)
          }
      | _ => none

/-- `RawEntry` view of a default button's `__dict__`, as iterated when
the items list is missing or empty. -/
def defaultButtonEntry (b : ButtonConfig) : RawEntry :=
  .item
    { name := some b.name
      label := some b.label
      price := some (some b.price)
      css_class := some b.css_class
      color := b.color
      category := some b.category
      has_depot := b.has_depot
      priority := b.priority.map some }

/-- `resolve_button_config(event)` from src/app.py: resolves the event's
raw items (falling back to the default buttons' dicts when the items
list is absent or empty), skipping entries whose construction raises,
and returning `DEFAULT_BUTTONS` itself when nothing survives. -/
def resolve_button_config (settings : Option KassSettings) : List ButtonConfig :=
  let depot := resolveDepotPrice settings
  let raw_items := settings.bind (fun s => s.items)
  let items_source : List RawEntry :=
    match raw_items with
    | some l => if l = [] then DEFAULT_BUTTONS.map defaultButtonEntry else l
    | none => DEFAULT_BUTTONS.map defaultButtonEntry
  let normalized := items_source.filterMap (resolveItem depot)
  if normalized = [] then DEFAULT_BUTTONS else normalized

/-- A normalized item dict as produced by `validate_and_normalize_buttons`. -/
structure NormItem where
  name : String
  label : String
  price : Int
  css_class : String
  color : Option String
  category : String
  has_depot : Bool
  priority : Option Int
deriving DecidableEq

/-- The normalized settings dict returned by
`validate_and_normalize_buttons` (restricted to the keys it writes). -/
structure NormSettings where
  depot_price : Int
  category_order : List String
  category_visibility : List (String × Bool × Bool)
  items : List NormItem
deriving DecidableEq

/-- The product name `validate_and_normalize_buttons` extracts from a
raw item: `str(item.get("name") or item.get("label") or "").strip()`. -/
def extractName (i : RawItem) : String :=
  pyStrip ((pyOrStr i.name i.label).getD "")

/-- The name extracted from a raw entry, when the entry is a dict and
the extracted name is non-empty (the entries validation keeps). -/
def entryName : RawEntry → Option String
  | .notDict => none
  | .item i =>
    let n := extractName i
    if n = "" then none else some n

/-- Normalization of one raw item in `validate_and_normalize_buttons`
(everything after the duplicate check): label defaults to the extracted
name, price coerces with default 0, category defaults to "Standard". -/
def normItem (i : RawItem) (name : String) : NormItem :=
  { name := name
    label :=
      let l := pyStrip ((pyOrStr i.label (some name)).getD name)
      if l = "" then name else l
    price :=
      match i.price with
      | none => 0
      | some none => 0
      | some (some p) => p
    css_class := (pyOrStr i.css_class (some "custom")).getD "custom"
    color := i.color
    category := (pyOrStr i.category (some "Standard")).getD "Standard"
    has_depot := i.has_depot
    priority := i.priority.getD none }

/-- The duplicate names collected by the validation loop, in encounter
order: a name is recorded each time it re-appears after `seen` already
holds it (duplicated occurrences are not added to `seen` again). -/
def dupsOf (seen : List String) : List String → List String
  | [] => []
  | n :: rest =>
    if n ∈ seen then n :: dupsOf seen rest else dupsOf (n :: seen) rest

/-- The normalized item list built by the validation loop: one entry per
first occurrence of each non-empty extracted name. -/
def normItemsOf (seen : List String) : List RawEntry → List NormItem
  | [] => []
  | e :: rest =>
    match e with
    | .notDict => normItemsOf seen rest
    | .item i =>
      let n := extractName i
      if n = "" then normItemsOf seen rest
      else if n ∈ seen then normItemsOf seen rest
      else normItem i n :: normItemsOf (n :: seen) rest

/-- Insertion into a sorted list of strings (ordering by `≤`). -/
def insertSorted (s : String) : List String → List String
  | [] => [s]
  | x :: xs => if s ≤ x then s :: x :: xs else x :: insertSorted s xs

/-- Insertion sort over strings, modelling Python `sorted`. -/
def sortStrings (l : List String) : List String :=
  l.foldr insertSorted []

/-- Accumulator for `dedupFirst`: keeps the first occurrence of each
element not already seen. -/
def dedupFirstAux (seen : List String) : List String → List String
  | [] => []
  | x :: xs =>
    if x ∈ seen then dedupFirstAux seen xs
    else x :: dedupFirstAux (x :: seen) xs

/-- Distinct elements in first-occurrence order: the key order of a
Python `Counter`/`set` built by left-to-right insertion (where a `set`
is subsequently sorted, hash order is irrelevant). -/
def dedupFirst (l : List String) : List String := dedupFirstAux [] l

/-- The sorted, deduplicated duplicate-name list the error message is
built from: `sorted(set(duplicates))`. -/
def sortedDups (entries : List RawEntry) : List String :=
  sortStrings (dedupFirst (dupsOf [] (entries.filterMap entryName)))

/-- The duplicate-name `ValueError` message raised by
`validate_and_normalize_buttons`. -/
def dupMessage (names : List String) : String :=
  "Doppelte Produktnamen gefunden: " ++ String.intercalate ", " names

/-- Python-truthy test for an optional string list entry of
`category_order` (`none` models a non-string entry, which is skipped). -/
def categoryOrderOf (raw : Option (List (Option String))) (itemCats : List String) :
    List String :=
  let base : List String :=
    match raw with
    | some l =>
      l.foldl
        (fun acc e =>
          match e with
          | some s =>
            let n := pyStrip s
            if n ≠ "" ∧ n ∉ acc then acc ++ [n] else acc
          | none => acc)
        []
    | none => []
  itemCats.foldl (fun acc c => if c ∉ acc then acc ++ [c] else acc) base

/-- Association-list upsert modelling Python dict assignment. -/
def upsert (k : String) (v : Bool × Bool) :
    List (String × Bool × Bool) → List (String × Bool × Bool)
  | [] => [(k, v)]
  | (k₂, v₂) :: rest => if k₂ = k then (k, v) :: rest else (k₂, v₂) :: upsert k v rest

/-- The `category_visibility` dict synthesized by validation: sanitized
copies of the supplied entries (values record whether the stored
`cashier` / `price_list` flags are literally `False`), then default
`(true, true)` entries for categories of items not yet present. -/
def categoryVisibilityOf (raw : Option (List (String × Option (Bool × Bool))))
    (itemCats : List String) : List (String × Bool × Bool) :=
  let base : List (String × Bool × Bool) :=
    match raw with
    | some l =>
      l.foldl
        (fun acc kv =>
          let n := pyStrip kv.1
          if n = "" then acc
          else
            match kv.2 with
            | some flags => upsert n (!flags.1, !flags.2) acc
            | none => upsert n (true, true) acc)
        []
    | none => []
  itemCats.foldl
    (fun acc c => if (acc.find? (fun kv => kv.1 = c)).isSome then acc else acc ++ [(c, true, true)])
    base

/-- The category of a normalized item as used by the category-order and
visibility synthesis: `str(item.get("category") or "Standard").strip()
or "Standard"`. -/
def normItemCategory (it : NormItem) : String :=
  let c := pyStrip ((pyOrStr (some it.category) (some "Standard")).getD "Standard")
  if c = "" then "Standard" else c

/-- `validate_and_normalize_buttons(settings)` from src/app.py: raises
(`Except.error`) on duplicate product names, otherwise returns the
normalized settings with synthesized `category_order` and
`category_visibility` and the default buttons substituted when no valid
item survives. -/
def validate_and_normalize_buttons (settings : Option KassSettings) :
    Except String NormSettings :=
  let s := settings.getD {}
  let items := (s.items).getD []
  let depot := resolveDepotPrice settings
  let names := items.filterMap entryName
  let duplicates := dupsOf [] names
  if duplicates ≠ [] then
    .error (dupMessage (sortStrings (dedupFirst duplicates)))
  else
    let normalized₀ := normItemsOf [] items
    let cats := normalized₀.map normItemCategory
    let category_order := categoryOrderOf s.category_order cats
    let category_visibility := categoryVisibilityOf s.category_visibility cats
    let normalized :=
      if normalized₀ = [] then
        DEFAULT_BUTTONS.map (fun b =>
          { name := b.name, label := b.label, price := b.price,
            css_class := b.css_class, color := b.color, category := b.category,
            has_depot := b.has_depot, priority := none })
      else normalized₀
    .ok
      { depot_price := depot
        category_order := category_order
        category_visibility := category_visibility
        items := normalized }

/-- An `Order` row (id, event, total). -/
structure Order where
  id : Nat
  event_id : Nat
  total : Int
deriving DecidableEq

/-- An `OrderItem` row: one per cart entry, ungrouped. -/
structure OrderItem where
  order_id : Nat
  name : String
  price : Int
deriving DecidableEq

/-- A `DrinkSale` row: one per distinct product name of an order. -/
structure DrinkSale where
  order_id : Nat
  name : String
  quantity : Nat
deriving DecidableEq

/-- One entry of the `OrderLog.items` JSON snapshot. -/
structure AggItem where
  name : String
  label : String
  qty : Nat
  price : Int
deriving DecidableEq

/-- An `OrderLog` row (actor/user-agent strings are request metadata
irrelevant to the claims and omitted). -/
structure OrderLogEntry where
  event_id : Nat
  order_id : Option Nat
  total : Int
  items : List AggItem
deriving DecidableEq

/-- The persisted tables checkout touches, plus the autoincrement
counter assigning `Order.id`. -/
structure DB where
  orders : List Order := []
  order_items : List OrderItem := []
  drink_sales : List DrinkSale := []
  order_logs : List OrderLogEntry := []
  next_order_id : Nat := 1
deriving DecidableEq

/-- Lookup of the button a dict comprehension over `buttons` associates
with `n` (later duplicates overwrite earlier ones, hence the last
matching button). -/
def lookupButton (buttons : List ButtonConfig) (n : String) : Option ButtonConfig :=
  (buttons.filter (fun b => b.name = n)).getLast?

/-- `prices.get(item, 0)`: the effective price charged for `n`, 0 when
`n` is not in the resolved catalog. -/
def priceOf (buttons : List ButtonConfig) (n : String) : Int :=
  match lookupButton buttons n with
  | some b => b.price_with_depot
  | none => 0

/-- `label_map.get(name, name)`: `btn.label or btn.name` per button. -/
def labelOf (buttons : List ButtonConfig) (n : String) : String :=
  match lookupButton buttons n with
  | some b => if b.label = "" then b.name else b.label
  | none => n

/-- Outcome of a checkout run: `ok` when every commit succeeded (the
cart is then cleared), `failed` when some commit raised (the rows of
earlier, already durable commits remain and the cart is untouched). -/
inductive CheckoutOutcome where
  | ok (db : DB) (cart : List String)
  | failed (db : DB) (cart : List String)
deriving DecidableEq

/-- Database state of a checkout outcome. -/
def CheckoutOutcome.db : CheckoutOutcome → DB
  | .ok db _ => db
  | .failed db _ => db

/-- Cart state of a checkout outcome. -/
def CheckoutOutcome.cart : CheckoutOutcome → List String
  | .ok _ cart => cart
  | .failed _ cart => cart

/-- Whether the outcome is a failure. -/
def CheckoutOutcome.isFailed : CheckoutOutcome → Bool
  | .ok _ _ => false
  | .failed _ _ => true

/-- `checkout()` from src/app.py, with each of its three
`db.session.commit()` calls made explicit: commit `k` succeeds iff
`commitOk k`.  A failing commit rolls back the rows staged since the
previous commit and aborts the handler (the session cart assignment at
the end is never reached, so the cart keeps its prior contents).
Commit 1 persists the `Order` header, commit 2 the `OrderItem` and
`DrinkSale` rows, commit 3 the `OrderLog` row; only after commit 3 is
the cart cleared.  An empty cart stages nothing and just re-clears the
cart. -/
def checkoutRun (commitOk : Nat → Bool) (eid : Nat)
    (settings : Option KassSettings) (db : DB) (cart : List String) :
    CheckoutOutcome :=
  let buttons := resolve_button_config settings
  if cart = [] then .ok db []
  else
    let total := (cart.map (priceOf buttons)).sum
    let oid := db.next_order_id
    if !commitOk 1 then .failed db cart
    else
      let db1 : DB :=
        { db with
            orders := db.orders ++ [{ id := oid, event_id := eid, total := total }]
            next_order_id := oid + 1 }
      if !commitOk 2 then .failed db1 cart
      else
        let db2 : DB :=
          { db1 with
              order_items := db1.order_items ++
                cart.map (fun n => { order_id := oid, name := n, price := priceOf buttons n }),
              drink_sales := db1.drink_sales ++
                (dedupFirst cart).map
                  (fun n => { order_id := oid, name := n, quantity := cart.count n }) }
        if !commitOk 3 then .failed db2 cart
        else
          let agg := (dedupFirst cart).map
            (fun n =>
              { name := n, label := labelOf buttons n, qty := cart.count n,
                price := priceOf buttons n : AggItem })
          let db3 : DB :=
            { db2 with
                order_logs := db2.order_logs ++
                  [{ event_id := eid, order_id := some oid, total := total, items := agg }] }
          .ok db3 []

/-- `checkout()` on the no-failure path. -/
def checkout (eid : Nat) (settings : Option KassSettings) (db : DB)
    (cart : List String) : CheckoutOutcome :=
  checkoutRun (fun _ => true) eid settings db cart

/-- `_category_is_visible(category_visibility, category, key)` on the
dict shape `validate_and_normalize_buttons` produces: a category is
visible unless its entry's flag for the key is literally `False`;
unknown categories and unknown keys are visible. -/
def category_is_visible (vis : List (String × Bool × Bool)) (category key : String) :
    Bool :=
  match vis.find? (fun kv => kv.1 = category) with
  | some kv =>
    if key = "cashier" then kv.2.1
    else if key = "price_list" then kv.2.2
    else true
  | none => true

/-- `add_item()` from src/app.py: the catalog is filtered to
cashier-visible categories, the price dict is keyed by the surviving
button names, and the requested name is appended to the session cart
only when it is truthy and among those keys. -/
def add_item (buttons : List ButtonConfig) (vis : List (String × Bool × Bool))
    (cart : List String) (name : Option String) : List String :=
  let visible := buttons.filter (fun b => category_is_visible vis b.category "cashier")
  let priceNames := visible.map (fun b => b.name)
  match name with
  | some n => if n ≠ "" ∧ n ∈ priceNames then cart ++ [n] else cart
  | none => cart

/-- `remove_last()` from src/app.py: pops the last cart entry, a no-op
on the empty cart. -/
def remove_last (cart : List String) : List String :=
  cart.dropLast

/-- An `Event` row, restricted to the flags the activation/archiving
claims are about. -/
structure EventR where
  id : Nat
  is_active : Bool
  is_archived : Bool
deriving DecidableEq

/-- `activate_event(event_id)` from src/app.py: `get_or_404` (absent id
leaves the table unchanged), then one transaction that clears
`is_active` on every row and sets the target active and unarchived. -/
def activate_event (events : List EventR) (eid : Nat) : List EventR :=
  if events.any (fun e => e.id = eid) then
    events.map (fun e =>
      if e.id = eid then { e with is_active := true, is_archived := false }
      else { e with is_active := false })
  else events

/-- `archive_event(event_id)` from src/app.py: sets the target archived
and clears its `is_active` flag. -/
def archive_event (events : List EventR) (eid : Nat) : List EventR :=
  if events.any (fun e => e.id = eid) then
    events.map (fun e =>
      if e.id = eid then { e with is_archived := true, is_active := false } else e)
  else events

/-- An activate/archive admin operation. -/
inductive EventOp where
  | activate (eid : Nat)
  | archive (eid : Nat)
deriving DecidableEq

/-- Application of one admin operation. -/
def applyEventOp (events : List EventR) : EventOp → List EventR
  | .activate eid => activate_event events eid
  | .archive eid => archive_event events eid

/-- Application of a sequence of admin operations. -/
def applyEventOps (events : List EventR) (ops : List EventOp) : List EventR :=
  ops.foldl applyEventOp events

/-- Number of rows that are simultaneously active and not archived. -/
def countActiveUnarchived (events : List EventR) : Nat :=
  (events.filter (fun e => e.is_active && !e.is_archived)).length

/-- A `Team` row. -/
structure Team where
  id : Nat
  event_id : Nat
  name : String
  shots : Int
deriving DecidableEq

/-- A `ShotLog` row (actor/user-agent request metadata omitted). -/
structure ShotLogEntry where
  event_id : Nat
  team_id : Option Nat
  team_name : String
  amount : Int
deriving DecidableEq

/-- The shotcounter state: team rows, the append-only shot log, and the
autoincrement counter assigning `Team.id`. -/
structure SState where
  teams : List Team := []
  shot_logs : List ShotLogEntry := []
  next_team_id : Nat := 1
deriving DecidableEq

/-- Update of the first list element satisfying `p` (the ORM mutates the
single row `first()` returned; primary-key ids are unique). -/
def updateFirst (p : α → Bool) (f : α → α) : List α → List α
  | [] => []
  | x :: xs => if p x then f x :: xs else x :: updateFirst p f xs

/-- The character class of `TEAM_NAME_PATTERN`
(`^[A-Za-z0-9ÄÖÜäöüß .,'&()/\\-]+$`): ASCII letters and digits, the
German umlauts and sharp s, space, and `. , ' & ( ) / \ -` (the `\\` in
the raw pattern puts a literal backslash in the class). -/
def teamNameChar (c : Char) : Bool :=
  (Char.ofNat 65 ≤ c && c ≤ Char.ofNat 90) ||
  (Char.ofNat 97 ≤ c && c ≤ Char.ofNat 122) ||
  (Char.ofNat 48 ≤ c && c ≤ Char.ofNat 57) ||
  c = 'Ä' || c = 'Ö' || c = 'Ü' || c = 'ä' || c = 'ö' || c = 'ü' || c = 'ß' ||
  c = Char.ofNat 32 || c = Char.ofNat 46 || c = Char.ofNat 44 ||
  c = Char.ofNat 39 || c = Char.ofNat 38 || c = Char.ofNat 40 ||
  c = Char.ofNat 41 || c = Char.ofNat 47 || c = Char.ofNat 92 ||
  c = Char.ofNat 45

/-- Semantics of `re.match(TEAM_NAME_PATTERN, name)`: the anchored
pattern `^[...]+$` matches iff the whole string is a non-empty run of
class characters, or — because `$` also matches just before a final
newline — such a run followed by one trailing `\n`. -/
def teamNameMatch (s : String) : Bool :=
  let l := s.toList
  (decide (l ≠ []) && l.all teamNameChar) ||
    (match l.getLast? with
     | some c =>
       c = Char.ofNat 10 && decide (l.dropLast ≠ []) && l.dropLast.all teamNameChar
     | none => false)

/-- The fixed allowed-characters description in the validation error
(note it lists an underscore, which the pattern does not accept, and
omits the backslash, which it does). -/
def teamNameAllowedDescription : String :=
  "Buchstaben, Zahlen, Leerzeichen sowie . , - _ & / ( ) " ++
    (Char.ofNat 39).toString

/-- `_validate_team_name(name)` from src/app.py: `(ok, error-message)`. -/
def _validate_team_name (name : String) : Bool × Option String :=
  if teamNameMatch name then (true, none)
  else
    (false,
      some ("Ungültige Zeichen im Teamnamen. Erlaubt sind: " ++
        teamNameAllowedDescription ++ "."))

/-- `add_team()` from src/app.py: strips the submitted name, rejects the
empty name, names failing validation, and per-event duplicates, and
otherwise inserts a team with zero shots.  The `Bool` reports whether a
team was created. -/
def add_team (eid : Nat) (st : SState) (raw_name : String) : SState × Bool :=
  let name := pyStrip raw_name
  if name = "" then (st, false)
  else if (_validate_team_name name).1 = false then (st, false)
  else if st.teams.any (fun t => t.event_id = eid && t.name = name) then (st, false)
  else
    ({ st with
        teams := st.teams ++ [{ id := st.next_team_id, event_id := eid,
                                name := name, shots := 0 }]
        next_team_id := st.next_team_id + 1 },
      true)

/-- `add_shots()` from src/app.py: a falsy (zero) team id, an unknown
team, or a non-positive amount leaves the state untouched; otherwise the
team's counter is incremented and committed, and a `ShotLog` row is
appended that snapshots the team's current name. -/
def add_shots (eid : Nat) (st : SState) (team_id : Nat) (amount : Int) : SState :=
  if team_id = 0 then st
  else
    match st.teams.find? (fun t => t.id = team_id && t.event_id = eid) with
    | none => st
    | some team =>
      if amount ≤ 0 then st
      else
        { st with
            teams := updateFirst (fun t => t.id = team_id && t.event_id = eid)
              (fun t => { t with shots := t.shots + amount }) st.teams
            shot_logs := st.shot_logs ++
              [{ event_id := eid, team_id := some team.id,
                 team_name := team.name, amount := amount }] }

/-- `update_team()` from src/app.py: optional rename (validated and
checked for uniqueness against other teams of the event) and optional
absolute shots set (non-negative); any rejection rolls back the whole
request, committing neither field.  The shot log is never touched. -/
def update_team (eid : Nat) (st : SState) (team_id : Nat)
    (raw_name : String) (new_shots : Option Int) : SState :=
  match st.teams.find? (fun t => t.id = team_id && t.event_id = eid) with
  | none => st
  | some team =>
    let new_name := pyStrip raw_name
    if new_name ≠ "" ∧ (_validate_team_name new_name).1 = false then st
    else if new_name ≠ "" ∧ new_name ≠ team.name ∧
        st.teams.any (fun t => t.event_id = eid && t.name = new_name) then st
    else if (match new_shots with | some ns => decide (ns < 0) | none => false) then st
    else
      { st with
          teams := updateFirst (fun t => t.id = team_id && t.event_id = eid)
            (fun t =>
              { t with
                  name := if new_name ≠ "" then new_name else t.name
                  shots := new_shots.getD t.shots }) st.teams }

/-- One in-flight `add_shots` client of the concurrency model.  The
handler's `team.shots += amount` is an application-memory
read-modify-write: the query reads the counter into Python memory, and
the commit writes back the absolute value computed from that stale
read.  `readv` holds the value the query read, `done` whether the
commit has happened. -/
structure ShotClient where
  amount : Int
  readv : Option Int := none
  done : Bool := false
deriving DecidableEq

/-- One atomic database step of a client: its query-read of the counter,
or its commit writing back `read value + amount`. -/
def shotClientStep (shots : Int) (c : ShotClient) : Int × ShotClient :=
  if c.done then (shots, c)
  else
    match c.readv with
    | none => (shots, { c with readv := some shots })
    | some v => (v + c.amount, { c with done := true })

/-- Run of concurrent `add_shots` clients under a schedule: each entry
names the client that performs its next atomic step. -/
def runShotClients (shots : Int) (cs : List ShotClient) :
    List Nat → Int × List ShotClient
  | [] => (shots, cs)
  | i :: rest =>
    match cs[i]? with
    | none => runShotClients shots cs rest
    | some c =>
      let (shots2, c2) := shotClientStep shots c
      runShotClients shots2 (cs.set i c2) rest

/-! ### Helper lemmas -/

section Lemmas

variable {α : Type}

lemma dropWhile_head?_false {p : α → Bool} :
    ∀ {l : List α} {a : α}, (l.dropWhile p).head? = some a → p a = false := by
  intro l
  induction l with
  | nil => intro a h; simp [List.dropWhile] at h
  | cons x xs ih =>
    intro a h
    rw [List.dropWhile_cons] at h
    by_cases hx : p x
    · rw [if_pos hx] at h
      exact ih h
    · rw [if_neg hx] at h
      simp only [List.head?_cons, Option.some.injEq] at h
      subst h
      exact Bool.eq_false_iff.mpr hx

lemma dropWhile_getLast? {p : α → Bool} :
    ∀ {l : List α}, l.dropWhile p ≠ [] → (l.dropWhile p).getLast? = l.getLast? := by
  intro l
  induction l with
  | nil => intro h; simp [List.dropWhile] at h
  | cons x xs ih =>
    intro h
    rw [List.dropWhile_cons] at h ⊢
    by_cases hx : p x
    · rw [if_pos hx] at h ⊢
      have hxs : xs ≠ [] := by
        intro he
        rw [he] at h
        simp [List.dropWhile] at h
      rw [ih h]
      cases xs with
      | nil => exact absurd rfl hxs
      | cons y ys => rw [List.getLast?_cons_cons]
    · rw [if_neg hx]

lemma dropWhile_eq_self_of_head {p : α → Bool} {l : List α}
    (h : ∀ a, l.head? = some a → p a = false) : l.dropWhile p = l := by
  cases l with
  | nil => rfl
  | cons x xs =>
    rw [List.dropWhile_cons, h x rfl]
    simp

lemma pyStripList_getLast? {l : List Char} {c : Char}
    (h : (pyStripList l).getLast? = some c) : isPySpace c = false := by
  unfold pyStripList at h
  rw [List.getLast?_reverse] at h
  exact dropWhile_head?_false h

lemma pyStripList_head? {l : List Char} {c : Char}
    (h : (pyStripList l).head? = some c) : isPySpace c = false := by
  unfold pyStripList at h
  rw [List.head?_reverse] at h
  have hne : (l.dropWhile isPySpace).reverse.dropWhile isPySpace ≠ [] := by
    intro he
    rw [he] at h
    simp at h
  rw [dropWhile_getLast? hne, List.getLast?_reverse] at h
  exact dropWhile_head?_false h

lemma pyStripList_idem (l : List Char) : pyStripList (pyStripList l) = pyStripList l := by
  have h1 : (pyStripList l).dropWhile isPySpace = pyStripList l :=
    dropWhile_eq_self_of_head (fun a ha => pyStripList_head? ha)
  have h2 : (pyStripList l).reverse.dropWhile isPySpace = (pyStripList l).reverse := by
    refine dropWhile_eq_self_of_head (fun a ha => ?_)
    rw [List.head?_reverse] at ha
    exact pyStripList_getLast? ha
  show ((((pyStripList l).dropWhile isPySpace).reverse.dropWhile isPySpace)).reverse =
    pyStripList l
  rw [h1, h2, List.reverse_reverse]

lemma toList_asString (l : List Char) : (List.asString l).toList = l := rfl

lemma pyStrip_idem (s : String) : pyStrip (pyStrip s) = pyStrip s := by
  unfold pyStrip
  rw [toList_asString, pyStripList_idem]

lemma mem_dedupFirstAux {a : String} :
    ∀ {l seen : List String}, a ∈ dedupFirstAux seen l ↔ (a ∈ l ∧ a ∉ seen) := by
  intro l
  induction l with
  | nil => intro seen; simp [dedupFirstAux]
  | cons x xs ih =>
    intro seen
    rw [dedupFirstAux]
    by_cases hx : x ∈ seen
    · rw [if_pos hx, ih]
      by_cases hax : a = x
      · subst hax
        simp [hx]
      · simp [hax]
    · rw [if_neg hx, List.mem_cons, ih]
      by_cases hax : a = x
      · subst hax
        simp [hx]
      · simp [hax]

lemma mem_dedupFirst {a : String} {l : List String} :
    a ∈ dedupFirst l ↔ a ∈ l := by
  rw [dedupFirst, mem_dedupFirstAux]
  simp

lemma nodup_dedupFirstAux :
    ∀ (l seen : List String), (dedupFirstAux seen l).Nodup := by
  intro l
  induction l with
  | nil => intro seen; simp [dedupFirstAux]
  | cons x xs ih =>
    intro seen
    rw [dedupFirstAux]
    by_cases hx : x ∈ seen
    · rw [if_pos hx]
      exact ih seen
    · rw [if_neg hx]
      refine List.nodup_cons.mpr ⟨?_, ih (x :: seen)⟩
      intro hmem
      exact (mem_dedupFirstAux.mp hmem).2 (List.mem_cons_self _ _)

lemma nodup_dedupFirst (l : List String) : (dedupFirst l).Nodup :=
  nodup_dedupFirstAux l []

lemma mem_insertSorted {a s : String} :
    ∀ {l : List String}, a ∈ insertSorted s l ↔ a = s ∨ a ∈ l := by
  intro l
  induction l with
  | nil => simp [insertSorted]
  | cons x xs ih =>
    rw [insertSorted]
    by_cases h : s ≤ x
    · rw [if_pos h]
      simp [List.mem_cons]
    · rw [if_neg h]
      simp only [List.mem_cons, ih]
      tauto

lemma mem_sortStrings {a : String} :
    ∀ {l : List String}, a ∈ sortStrings l ↔ a ∈ l := by
  intro l
  induction l with
  | nil => simp [sortStrings]
  | cons x xs ih =>
    show a ∈ insertSorted x (sortStrings xs) ↔ _
    rw [mem_insertSorted, ih]
    simp [List.mem_cons]

lemma mem_dupsOf {n : String} :
    ∀ {names seen : List String},
      n ∈ dupsOf seen names ↔ (n ∈ seen ∧ n ∈ names) ∨ 2 ≤ names.count n := by
  intro names
  induction names with
  | nil => intro seen; simp [dupsOf]
  | cons m rest ih =>
    intro seen
    rw [dupsOf]
    by_cases hnm : n = m
    · subst hnm
      rw [List.count_cons_self]
      by_cases hm : n ∈ seen
      · rw [if_pos hm]
        constructor
        · intro _
          exact Or.inl ⟨hm, List.mem_cons_self _ _⟩
        · intro _
          exact List.mem_cons_self _ _
      · rw [if_neg hm, ih]
        constructor
        · rintro (⟨_, hr⟩ | h2)
          · have := List.one_le_count_iff.mpr hr
            omega
          · omega
        · rintro (⟨hs, _⟩ | h2)
          · exact absurd hs hm
          · have h1 : 1 ≤ rest.count n := by omega
            exact Or.inl ⟨List.mem_cons_self _ _, List.one_le_count_iff.mp h1⟩
    · rw [List.count_cons_of_ne hnm]
      by_cases hm : m ∈ seen
      · rw [if_pos hm, List.mem_cons, ih]
        constructor
        · rintro (h | ⟨hs, hr⟩ | h2)
          · exact absurd h hnm
          · exact Or.inl ⟨hs, List.mem_cons_of_mem _ hr⟩
          · exact Or.inr h2
        · rintro (⟨hs, hr⟩ | h2)
          · rcases List.mem_cons.mp hr with h | h
            · exact absurd h hnm
            · exact Or.inr (Or.inl ⟨hs, h⟩)
          · exact Or.inr (Or.inr h2)
      · rw [if_neg hm, ih]
        constructor
        · rintro (⟨hs, hr⟩ | h2)
          · rcases List.mem_cons.mp hs with h | h
            · exact absurd h hnm
            · exact Or.inl ⟨h, List.mem_cons_of_mem _ hr⟩
          · exact Or.inr h2
        · rintro (⟨hs, hr⟩ | h2)
          · rcases List.mem_cons.mp hr with h | h
            · exact absurd h hnm
            · exact Or.inl ⟨List.mem_cons_of_mem _ hs, h⟩
          · exact Or.inr h2

lemma find?_updateFirst (p : α → Bool) (f : α → α)
    (hpf : ∀ a, p a = true → p (f a) = true) :
    ∀ {l : List α}, (updateFirst p f l).find? p = (l.find? p).map f := by
  intro l
  induction l with
  | nil => rfl
  | cons x xs ih =>
    rw [updateFirst]
    by_cases hx : p x = true
    · rw [if_pos hx, List.find?_cons_of_pos _ (hpf x hx), List.find?_cons_of_pos _ hx]
      rfl
    · rw [if_neg hx, List.find?_cons_of_neg _ (by simpa using hx),
        List.find?_cons_of_neg _ (by simpa using hx)]
      exact ih

lemma mem_updateFirst_of_neg (p : α → Bool) (f : α → α) {t : α}
    (ht : p t = false) : ∀ {l : List α}, t ∈ l → t ∈ updateFirst p f l := by
  intro l
  induction l with
  | nil => intro h; exact absurd h (List.not_mem_nil t)
  | cons x xs ih =>
    intro h
    rw [updateFirst]
    rcases List.mem_cons.mp h with h | h
    · subst h
      rw [if_neg (by simp [ht])]
      exact List.mem_cons_self _ _
    · by_cases hx : p x = true
      · rw [if_pos hx]
        exact List.mem_cons_of_mem _ h
      · rw [if_neg hx]
        exact List.mem_cons_of_mem _ (ih h)

lemma countP_eq_one_of_nodup {p : EventR → Bool} :
    ∀ {events : List EventR} {bid : Nat},
      (events.map EventR.id).Nodup →
      (∃ e ∈ events, e.id = bid) →
      (∀ e, p e = decide (e.id = bid)) →
      events.countP p = 1 := by
  intro events
  induction events with
  | nil => intro bid _ h _; simp at h
  | cons x xs ih =>
    intro bid hnodup hex hp
    rw [List.map_cons, List.nodup_cons] at hnodup
    by_cases hx : x.id = bid
    · rw [List.countP_cons_of_pos _ _ (by rw [hp]; exact decide_eq_true hx)]
      have hzero : xs.countP p = 0 := by
        rw [List.countP_eq_zero]
        intro e he
        rw [hp]
        simp only [decide_eq_true_eq]
        intro heq
        have hxm : x.id ∈ List.map EventR.id xs := by
          rw [hx, ← heq]
          exact List.mem_map_of_mem EventR.id he
        exact hnodup.1 hxm
      omega
    · rw [List.countP_cons_of_neg _ _ (by rw [hp]; simpa using hx)]
      rcases hex with ⟨e, he, heid⟩
      rcases List.mem_cons.mp he with he | he
      · exact absurd (he ▸ heid) hx
      · exact ih hnodup.2 ⟨e, he, heid⟩ hp

end Lemmas

/-! ### Claim theorems -/

/-- C6: for every team and every amount ≤ 0, `add_shots` rejects the
operation: the whole state — the team's shots counter and the shot log —
is unchanged (rejected before any mutation, not clamped). -/
theorem c6_add_shots_nonpositive_is_rejected (eid : Nat) (st : SState)
    (team_id : Nat) (amount : Int) (h : amount ≤ 0) :
    add_shots eid st team_id amount = st := by
  unfold add_shots
  by_cases h0 : team_id = 0
  · rw [if_pos h0]
  · rw [if_neg h0]
    cases hf : st.teams.find? (fun t => t.id = team_id && t.event_id = eid) with
    | none => rfl
    | some team =>
      show (if amount ≤ 0 then st else _) = st
      rw [if_pos h]

/-- Witness for C6 at a concrete state and amount 0. -/
theorem c6_add_shots_nonpositive_is_rejected_witness :
    (0 : Int) ≤ 0 ∧
      add_shots 1 { teams := [{ id := 1, event_id := 1, name := "Alpha", shots := 4 }],
                    shot_logs := [], next_team_id := 2 } 1 0 =
        { teams := [{ id := 1, event_id := 1, name := "Alpha", shots := 4 }],
          shot_logs := [], next_team_id := 2 } :=
  ⟨le_refl 0, c6_add_shots_nonpositive_is_rejected 1 _ 1 0 (le_refl 0)⟩

/-- C5: for an existing team of the active event and an amount > 0,
`add_shots` increments that team's shots counter by exactly the amount,
leaves every other team untouched, and appends exactly one `ShotLog`
row whose `amount` is the amount and whose `team_name` snapshots the
team's name at that moment; and `update_team` (in particular a later
rename) never changes any existing `ShotLog` row. -/
theorem c5_add_shots_increment_and_log_snapshot (eid : Nat) (st : SState)
    (team_id : Nat) (amount : Int) (team : Team)
    (hfind : st.teams.find? (fun t => t.id = team_id && t.event_id = eid) = some team)
    (hpos : 0 < amount) (htid : team_id ≠ 0) :
    (add_shots eid st team_id amount).shot_logs =
      st.shot_logs ++ [{ event_id := eid, team_id := some team.id,
                         team_name := team.name, amount := amount }] ∧
    (add_shots eid st team_id amount).teams.find?
        (fun t => t.id = team_id && t.event_id = eid) =
      some { team with shots := team.shots + amount } ∧
    (∀ t ∈ st.teams, (t.id = team_id && t.event_id = eid) = false →
      t ∈ (add_shots eid st team_id amount).teams) ∧
    (∀ (st2 : SState) (tid2 : Nat) (raw : String) (ns : Option Int),
      (update_team eid st2 tid2 raw ns).shot_logs = st2.shot_logs) := by
  have hadd : add_shots eid st team_id amount =
      { st with
          teams := updateFirst (fun t => t.id = team_id && t.event_id = eid)
            (fun t => { t with shots := t.shots + amount }) st.teams
          shot_logs := st.shot_logs ++
            [{ event_id := eid, team_id := some team.id,
               team_name := team.name, amount := amount }] } := by
    unfold add_shots
    rw [if_neg htid, hfind]
    show (if amount ≤ 0 then st else _) = _
    rw [if_neg (not_le.mpr hpos)]
  refine ⟨by rw [hadd], ?_, ?_, ?_⟩
  · rw [hadd]
    show (updateFirst _ _ st.teams).find? _ = _
    rw [@find?_updateFirst Team
      (fun t => decide (t.id = team_id) && decide (t.event_id = eid))
      (fun t => { t with shots := t.shots + amount })
      (fun a h => h) st.teams, hfind]
    rfl
  · intro t ht hneg
    rw [hadd]
    exact @mem_updateFirst_of_neg Team
      (fun t => decide (t.id = team_id) && decide (t.event_id = eid))
      (fun t => { t with shots := t.shots + amount })
      t hneg st.teams ht
  · intro st2 tid2 raw ns
    unfold update_team
    split
    · rfl
    · dsimp only
      split_ifs <;> rfl

/-- Witness for C5: team "Alpha" gets 3 shots, then is renamed "Beta";
the log row still reads "Alpha". -/
theorem c5_add_shots_increment_and_log_snapshot_witness :
    (add_shots 5 { teams := [{ id := 1, event_id := 5, name := "Alpha", shots := 0 }],
                   shot_logs := [], next_team_id := 2 } 1 3).shot_logs =
      [{ event_id := 5, team_id := some 1, team_name := "Alpha", amount := 3 }] :=
  ((c5_add_shots_increment_and_log_snapshot 5
      { teams := [{ id := 1, event_id := 5, name := "Alpha", shots := 0 }],
        shot_logs := [], next_team_id := 2 } 1 3
      { id := 1, event_id := 5, name := "Alpha", shots := 0 }
      (by decide) (by decide) (by decide)).1).trans (List.nil_append _)

/-- C3: the `add_shots` increment `team.shots += amount` is an
application-memory read-modify-write, not a commit-time relative
update: interleaving two concurrent `add_shots(3)` clients (both read
the counter at 0, then both commit) loses an update — the final counter
is 3, not the claimed initial + Σ amounts = 6, which only the serial
schedule produces. -/
theorem c3_add_shots_concurrent_lost_update :
    (runShotClients 0 [{ amount := 3 }, { amount := 3 }] [0, 1, 0, 1]).1 = 3 ∧
    ((runShotClients 0 [{ amount := 3 }, { amount := 3 }] [0, 1, 0, 1]).2.all
      (fun c => c.done)) = true ∧
    (runShotClients 0 [{ amount := 3 }, { amount := 3 }] [0, 0, 1, 1]).1 = 6 ∧
    (3 : Int) ≠ 0 + (3 + 3) := by
  decide

/-- C10: an item whose category is hidden for the cashier context is
never added to the cart by `add_item`, and every name `add_item` ever
appends belongs to some cashier-visible catalog button at that moment. -/
theorem c10_hidden_category_items_never_added (buttons : List ButtonConfig)
    (vis : List (String × Bool × Bool)) (cart : List String) (n : String)
    (hhidden : ∀ b ∈ buttons, b.name = n →
      category_is_visible vis b.category "cashier" = false) :
    add_item buttons vis cart (some n) = cart ∧
    (∀ (cart2 : List String) (nm : Option String),
      add_item buttons vis cart2 nm ≠ cart2 →
      ∃ n2 b, nm = some n2 ∧ add_item buttons vis cart2 nm = cart2 ++ [n2] ∧
        b ∈ buttons ∧ b.name = n2 ∧
        category_is_visible vis b.category "cashier" = true) := by
  constructor
  · have hcond : ¬(n ≠ "" ∧ n ∈ (buttons.filter
        (fun b => category_is_visible vis b.category "cashier")).map
          (fun b => b.name)) := by
      rintro ⟨_, hmem⟩
      rcases List.mem_map.mp hmem with ⟨b, hbmem, hbname⟩
      rcases List.mem_filter.mp hbmem with ⟨hbbtn, hbvis⟩
      rw [hhidden b hbbtn hbname] at hbvis
      simp at hbvis
    show (if _ ≠ "" ∧ _ ∈ _ then cart ++ [n] else cart) = cart
    rw [if_neg hcond]
  · intro cart2 nm hne
    cases nm with
    | none => exact absurd rfl hne
    | some n2 =>
      by_cases hc : n2 ≠ "" ∧ n2 ∈ (buttons.filter
          (fun b => category_is_visible vis b.category "cashier")).map
            (fun b => b.name)
      · rcases List.mem_map.mp hc.2 with ⟨b, hb, hbn⟩
        rcases List.mem_filter.mp hb with ⟨hbb, hbv⟩
        refine ⟨n2, b, rfl, ?_, hbb, hbn, hbv⟩
        show (if _ ≠ "" ∧ _ ∈ _ then cart2 ++ [n2] else cart2) = cart2 ++ [n2]
        rw [if_pos hc]
      · have : add_item buttons vis cart2 (some n2) = cart2 := by
          show (if _ ≠ "" ∧ _ ∈ _ then cart2 ++ [n2] else cart2) = cart2
          rw [if_neg hc]
        exact absurd this hne

/-- Witness for C10: with category "Alkohol" hidden for the cashier,
adding "Bier" leaves the cart unchanged. -/
theorem c10_hidden_category_items_never_added_witness :
    add_item DEFAULT_BUTTONS [("Alkohol", false, true)] ["Wein"] (some "Bier") =
      ["Wein"] :=
  (c10_hidden_category_items_never_added DEFAULT_BUTTONS
    [("Alkohol", false, true)] ["Wein"] "Bier" (by decide)).1

section ActiveEvent

lemma ids_activate_event (events : List EventR) (eid : Nat) :
    (activate_event events eid).map EventR.id = events.map EventR.id := by
  unfold activate_event
  split
  · rw [List.map_map]
    refine List.map_congr_left (fun a _ => ?_)
    by_cases h : a.id = eid <;> simp [Function.comp, h]
  · rfl

lemma ids_archive_event (events : List EventR) (eid : Nat) :
    (archive_event events eid).map EventR.id = events.map EventR.id := by
  unfold archive_event
  split
  · rw [List.map_map]
    refine List.map_congr_left (fun a _ => ?_)
    by_cases h : a.id = eid <;> simp [Function.comp, h]
  · rfl

lemma countAN_activate_event (events : List EventR) (eid : Nat)
    (hnodup : (events.map EventR.id).Nodup)
    (hex : ∃ e ∈ events, e.id = eid) :
    countActiveUnarchived (activate_event events eid) = 1 := by
  unfold activate_event countActiveUnarchived
  rw [if_pos (List.any_eq_true.mpr
    (by rcases hex with ⟨e, he, heq⟩; exact ⟨e, he, decide_eq_true heq⟩))]
  rw [List.filter_map, List.length_map, ← List.countP_eq_length_filter]
  refine countP_eq_one_of_nodup hnodup hex (fun e => ?_)
  by_cases h : e.id = eid <;> simp [Function.comp, h]

lemma countAN_archive_event_le (events : List EventR) (cid : Nat) :
    countActiveUnarchived (archive_event events cid) ≤
      countActiveUnarchived events := by
  unfold archive_event countActiveUnarchived
  split
  · rw [List.filter_map, List.length_map, ← List.countP_eq_length_filter,
      ← List.countP_eq_length_filter]
    refine List.countP_mono_left (fun e _ h => ?_)
    by_cases hid : e.id = cid
    · simp [Function.comp, hid] at h
    · simpa [Function.comp, hid] using h
  · exact le_refl _

lemma countAN_applyEventOps_le (ops : List EventOp) :
    ∀ (events : List EventR), (events.map EventR.id).Nodup →
      countActiveUnarchived events ≤ 1 →
      countActiveUnarchived (applyEventOps events ops) ≤ 1 := by
  induction ops with
  | nil => intro events _ h; exact h
  | cons op rest ih =>
    intro events hnodup h
    show countActiveUnarchived (applyEventOps (applyEventOp events op) rest) ≤ 1
    have hids : (applyEventOp events op).map EventR.id = events.map EventR.id := by
      cases op with
      | activate eid => exact ids_activate_event events eid
      | archive eid => exact ids_archive_event events eid
    refine ih (applyEventOp events op) (hids ▸ hnodup) ?_
    cases op with
    | activate eid =>
      show countActiveUnarchived (activate_event events eid) ≤ 1
      by_cases hany : events.any (fun e => e.id = eid) = true
      · rcases List.any_eq_true.mp hany with ⟨e, he, hpe⟩
        exact le_of_eq (countAN_activate_event events eid hnodup
          ⟨e, he, of_decide_eq_true hpe⟩)
      · unfold activate_event
        rw [if_neg hany]
        exact h
    | archive cid =>
      exact le_trans (countAN_archive_event_le events cid) h

end ActiveEvent

/-- C4: activating event B makes exactly one event active and
non-archived (B itself, with its archived flag cleared) and deactivates
every other event (in particular the previously active A); archiving an
event clears its active flag; and under any sequence of activate and
archive operations a state with at most one active, non-archived row
keeps at most one. -/
theorem c4_at_most_one_active_event (events : List EventR) (a : EventR) (bid : Nat)
    (hnodup : (events.map EventR.id).Nodup)
    (ha : a ∈ events) (haact : a.is_active = true)
    (hb : ∃ e ∈ events, e.id = bid) :
    countActiveUnarchived (activate_event events bid) = 1 ∧
    (∀ e ∈ activate_event events bid,
      (e.id = bid → e.is_active = true ∧ e.is_archived = false) ∧
      (e.id ≠ bid → e.is_active = false)) ∧
    (∀ (evs : List EventR) (cid : Nat), ∀ e ∈ archive_event evs cid,
      e.id = cid → e.is_active = false ∧ e.is_archived = true) ∧
    (∀ (evs : List EventR) (ops : List EventOp),
      (evs.map EventR.id).Nodup → countActiveUnarchived evs ≤ 1 →
      countActiveUnarchived (applyEventOps evs ops) ≤ 1) := by
  refine ⟨countAN_activate_event events bid hnodup hb, ?_, ?_, ?_⟩
  · intro e he
    unfold activate_event at he
    rw [if_pos (List.any_eq_true.mpr
      (by rcases hb with ⟨e2, he2, heq⟩; exact ⟨e2, he2, decide_eq_true heq⟩))] at he
    rcases List.mem_map.mp he with ⟨e0, _, rfl⟩
    by_cases h0 : e0.id = bid
    · rw [if_pos h0]
      exact ⟨fun _ => ⟨rfl, rfl⟩, fun hne => absurd h0 hne⟩
    · rw [if_neg h0]
      exact ⟨fun heq => absurd heq h0, fun _ => rfl⟩
  · intro evs cid e he heid
    unfold archive_event at he
    by_cases hany : evs.any (fun e => e.id = cid) = true
    · rw [if_pos hany] at he
      rcases List.mem_map.mp he with ⟨e0, _, rfl⟩
      by_cases h0 : e0.id = cid
      · rw [if_pos h0]
        exact ⟨rfl, rfl⟩
      · rw [if_neg h0] at heid ⊢
        exact absurd heid h0
    · rw [if_neg hany] at he
      have := List.any_eq_false.mp (Bool.not_eq_true _ ▸ hany) e he
      simp [heid] at this
  · intro evs ops hn h
    exact countAN_applyEventOps_le ops evs hn h

/-- Witness for C4: activating event 2 while event 1 is active yields
exactly one active, non-archived event. -/
theorem c4_at_most_one_active_event_witness :
    countActiveUnarchived
      (activate_event [{ id := 1, is_active := true, is_archived := false },
                       { id := 2, is_active := false, is_archived := true }] 2) = 1 :=
  (c4_at_most_one_active_event
    [{ id := 1, is_active := true, is_archived := false },
     { id := 2, is_active := false, is_archived := true }]
    { id := 1, is_active := true, is_archived := false } 2
    (by decide) (by decide) rfl (by decide)).1

/-- C1: checkout of a non-empty cart whose names are all in the resolved
catalog creates exactly one Order totalling the sum of effective prices
(base price plus depot surcharge via `price_with_depot`), one ungrouped
OrderItem row per cart entry, and one DrinkSale row per distinct name
with its multiplicity as quantity; afterwards the cart is empty. -/
theorem c1_checkout_order_items_sales_cart (eid : Nat)
    (settings : Option KassSettings) (db : DB) (cart : List String)
    (hne : cart ≠ [])
    (hmem : ∀ n ∈ cart, (lookupButton (resolve_button_config settings) n).isSome = true) :
    (checkout eid settings db cart).db.orders =
      db.orders ++ [{ id := db.next_order_id, event_id := eid, total := (cart.map (priceOf (resolve_button_config settings))).sum }] ∧
    (∀ n ∈ cart, ∃ b, lookupButton (resolve_button_config settings) n = some b ∧
      priceOf (resolve_button_config settings) n = b.price_with_depot) ∧
    (checkout eid settings db cart).db.order_items =
      db.order_items ++ cart.map (fun n =>
        { order_id := db.next_order_id, name := n,
          price := priceOf (resolve_button_config settings) n }) ∧
    ((checkout eid settings db cart).db.order_items).length =
      db.order_items.length + cart.length ∧
    (checkout eid settings db cart).db.drink_sales =
      db.drink_sales ++ (dedupFirst cart).map (fun n =>
        { order_id := db.next_order_id, name := n, quantity := cart.count n }) ∧
    (dedupFirst cart).Nodup ∧
    (∀ n, n ∈ dedupFirst cart ↔ n ∈ cart) ∧
    (checkout eid settings db cart).db.order_logs =
      db.order_logs ++
        [{ event_id := eid,
           order_id := some db.next_order_id,
           total := (cart.map (priceOf (resolve_button_config settings))).sum,
           items := (dedupFirst cart).map (fun n =>
             { name := n,
               label := labelOf (resolve_button_config settings) n,
               qty := cart.count n,
               price := priceOf (resolve_button_config settings) n }) }] ∧
    (checkout eid settings db cart).cart = [] := by
  have hrun : checkout eid settings db cart = .ok
      { orders := db.orders ++ [{ id := db.next_order_id, event_id := eid, total := (cart.map (priceOf (resolve_button_config settings))).sum }]
        order_items := db.order_items ++ cart.map (fun n =>
          { order_id := db.next_order_id, name := n,
            price := priceOf (resolve_button_config settings) n })
        drink_sales := db.drink_sales ++ (dedupFirst cart).map (fun n =>
          { order_id := db.next_order_id, name := n, quantity := cart.count n })
        order_logs := db.order_logs ++
          [{ event_id := eid,
             order_id := some db.next_order_id,
             total := (cart.map (priceOf (resolve_button_config settings))).sum,
             items := (dedupFirst cart).map (fun n =>
               { name := n,
                 label := labelOf (resolve_button_config settings) n,
                 qty := cart.count n,
                 price := priceOf (resolve_button_config settings) n }) }]
        next_order_id := db.next_order_id + 1 } [] := by
    unfold checkout checkoutRun
    rw [if_neg hne]
    rfl
  refine ⟨by rw [hrun]; rfl, ?_, by rw [hrun]; rfl, ?_, by rw [hrun]; rfl,
    nodup_dedupFirst cart, fun n => mem_dedupFirst, by rw [hrun]; rfl,
    by rw [hrun]; rfl⟩
  · intro n hn
    have h := hmem n hn
    rw [Option.isSome_iff_exists] at h
    obtain ⟨b, hb⟩ := h
    refine ⟨b, hb, ?_⟩
    unfold priceOf
    rw [hb]
  · rw [hrun]
    show (db.order_items ++ cart.map _).length = _
    rw [List.length_append, List.length_map]

/-- Witness for C1: the spec's end-to-end example cart
["Bier", "Süssgetränke", "Bier"] on the default catalog. -/
theorem c1_checkout_order_items_sales_cart_witness :
    (["Bier", "Süssgetränke", "Bier"] : List String) ≠ [] ∧
    (checkout 1 none ⟨[], [], [], [], 1⟩ ["Bier", "Süssgetränke", "Bier"]).db.orders =
      [] ++ [{ id := 1, event_id := 1, total := ((["Bier", "Süssgetränke", "Bier"] : List String).map
          (priceOf (resolve_button_config none))).sum }] :=
  ⟨by decide,
    (c1_checkout_order_items_sales_cart 1 none ⟨[], [], [], [], 1⟩
      ["Bier", "Süssgetränke", "Bier"] (by decide) (by decide)).1⟩

/-- C2 counterexample: with a cart ["Bier"] and the second commit (the
OrderItem/DrinkSale commit) failing, checkout fails but the Order row
from the first commit remains persisted — the rows do not all roll back
together as the claim states. -/
theorem c2_checkout_not_atomic_counterexample :
    (checkoutRun (fun k => decide (k ≠ 2)) 1 none ⟨[], [], [], [], 1⟩
      ["Bier"]).isFailed = true ∧
    (checkoutRun (fun k => decide (k ≠ 2)) 1 none ⟨[], [], [], [], 1⟩
      ["Bier"]).db.orders ≠ [] ∧
    (checkoutRun (fun k => decide (k ≠ 2)) 1 none ⟨[], [], [], [], 1⟩
      ["Bier"]).db.order_items = [] := by
  decide

/-- C2 (amended): checkout persists across three separate commits —
Order, then OrderItems/DrinkSales, then OrderLog.  A commit failure
aborts the handler: rows staged since the previous commit roll back,
but rows of earlier commits remain persisted.  The cart is unchanged on
any failure and cleared exactly when all three commits succeed. -/
theorem c2_checkout_commit_staging (commitOk : Nat → Bool) (eid : Nat)
    (settings : Option KassSettings) (db : DB) (cart : List String)
    (hne : cart ≠ []) :
    ((checkoutRun commitOk eid settings db cart).isFailed = true →
      (checkoutRun commitOk eid settings db cart).cart = cart) ∧
    ((checkoutRun commitOk eid settings db cart).isFailed = false →
      (checkoutRun commitOk eid settings db cart).cart = [] ∧
      commitOk 1 = true ∧ commitOk 2 = true ∧ commitOk 3 = true) ∧
    (commitOk 1 = false →
      checkoutRun commitOk eid settings db cart = .failed db cart) ∧
    (commitOk 1 = true → commitOk 2 = false →
      checkoutRun commitOk eid settings db cart = .failed
        { db with
            orders := db.orders ++ [{ id := db.next_order_id, event_id := eid, total := (cart.map (priceOf (resolve_button_config settings))).sum }]
            next_order_id := db.next_order_id + 1 } cart) ∧
    (commitOk 1 = true → commitOk 2 = true → commitOk 3 = false →
      checkoutRun commitOk eid settings db cart = .failed
        { db with
            orders := db.orders ++ [{ id := db.next_order_id, event_id := eid, total := (cart.map (priceOf (resolve_button_config settings))).sum }]
            next_order_id := db.next_order_id + 1
            order_items := db.order_items ++ cart.map (fun n =>
              { order_id := db.next_order_id, name := n,
                price := priceOf (resolve_button_config settings) n })
            drink_sales := db.drink_sales ++ (dedupFirst cart).map (fun n =>
              { order_id := db.next_order_id, name := n,
                quantity := cart.count n }) } cart) := by
  cases h1 : commitOk 1 with
  | false =>
    have hrun : checkoutRun commitOk eid settings db cart = .failed db cart := by
      unfold checkoutRun
      rw [if_neg hne]
      simp only [h1]
      rfl
    refine ⟨fun _ => by rw [hrun]; rfl, fun hok => ?_, fun _ => hrun,
      fun hc => absurd hc (by decide),
      fun hc => absurd hc (by decide)⟩
    rw [hrun] at hok
    simp [CheckoutOutcome.isFailed] at hok
  | true =>
    cases h2 : commitOk 2 with
    | false =>
      have hrun : checkoutRun commitOk eid settings db cart = .failed
          { db with
              orders := db.orders ++ [{ id := db.next_order_id, event_id := eid, total := (cart.map (priceOf (resolve_button_config settings))).sum }]
              next_order_id := db.next_order_id + 1 } cart := by
        unfold checkoutRun
        rw [if_neg hne]
        simp only [h1, h2]
        rfl
      refine ⟨fun _ => by rw [hrun]; rfl, fun hok => ?_,
        fun hc => absurd hc (by decide), fun _ _ => hrun,
        fun _ hc => absurd hc (by decide)⟩
      rw [hrun] at hok
      simp [CheckoutOutcome.isFailed] at hok
    | true =>
      cases h3 : commitOk 3 with
      | false =>
        have hrun : checkoutRun commitOk eid settings db cart = .failed
            { db with
                orders := db.orders ++ [{ id := db.next_order_id, event_id := eid, total := (cart.map (priceOf (resolve_button_config settings))).sum }]
                next_order_id := db.next_order_id + 1
                order_items := db.order_items ++ cart.map (fun n =>
                  { order_id := db.next_order_id, name := n,
                    price := priceOf (resolve_button_config settings) n })
                drink_sales := db.drink_sales ++ (dedupFirst cart).map (fun n =>
                  { order_id := db.next_order_id, name := n,
                    quantity := cart.count n }) } cart := by
          unfold checkoutRun
          rw [if_neg hne]
          simp only [h1, h2, h3]
          rfl
        refine ⟨fun _ => by rw [hrun]; rfl, fun hok => ?_,
          fun hc => absurd hc (by decide),
          fun _ hc => absurd hc (by decide), fun _ _ _ => hrun⟩
        rw [hrun] at hok
        simp [CheckoutOutcome.isFailed] at hok
      | true =>
        have hrun : (checkoutRun commitOk eid settings db cart).isFailed = false ∧
            (checkoutRun commitOk eid settings db cart).cart = [] := by
          unfold checkoutRun
          rw [if_neg hne]
          simp only [h1, h2, h3]
          exact ⟨rfl, rfl⟩
        exact ⟨fun hf => absurd (hrun.1.symm.trans hf) (by decide),
          fun _ => ⟨hrun.2, rfl, rfl, rfl⟩,
          fun hc => absurd hc (by decide),
          fun _ hc => absurd hc (by decide),
          fun _ _ hc => absurd hc (by decide)⟩

/-- Witness for C2 (amended): with the third commit failing on a cart
["Bier"], checkout fails and the cart is left unchanged. -/
theorem c2_checkout_commit_staging_witness :
    (checkoutRun (fun k => decide (k ≠ 3)) 1 none ⟨[], [], [], [], 1⟩
      ["Bier"]).cart = ["Bier"] :=
  (c2_checkout_commit_staging (fun k => decide (k ≠ 3)) 1 none
    ⟨[], [], [], [], 1⟩ ["Bier"] (by decide)).1 (by decide)

/-- C7 counterexample: with an empty items list but a configured
depot_price of 5, `resolve_button_config` does not return the built-in
`DEFAULT_BUTTONS` value — every returned button carries `depot_price`
5 instead of the built-in constant 2. -/
theorem c7_default_catalog_counterexample :
    resolve_button_config
        (some { items := some [], depot_price := some (some 5) }) ≠
      DEFAULT_BUTTONS ∧
    (resolve_button_config
        (some { items := some [], depot_price := some (some 5) })).map
      (fun b => b.depot_price) = [5, 5, 5, 5, 5, 5, 5, 5, 5] := by
  decide

/-- C7 (amended): a settings blob with two entries resolving to the same
non-empty product name makes `validate_and_normalize_buttons` raise a
`ValueError` whose message lists every duplicated name (sorted,
deduplicated); and with an empty or missing items list,
`resolve_button_config` returns the nine built-in default products —
identical to `DEFAULT_BUTTONS` except that each button's `depot_price`
field carries the event's resolved depot price (so every effective
price equals the built-in one, no default product having a depot), and
exactly `DEFAULT_BUTTONS` when there are no settings at all. -/
theorem c7_duplicate_error_and_default_fallback (s : KassSettings) (n : String)
    (hdup : 2 ≤ ((s.items.getD []).filterMap entryName).count n) :
    validate_and_normalize_buttons (some s) =
      .error (dupMessage (sortStrings (dedupFirst
        (dupsOf [] ((s.items.getD []).filterMap entryName))))) ∧
    n ∈ sortStrings (dedupFirst
      (dupsOf [] ((s.items.getD []).filterMap entryName))) ∧
    (∀ s2 : KassSettings, s2.items = none ∨ s2.items = some [] →
      resolve_button_config (some s2) =
        DEFAULT_BUTTONS.map
          (fun b => { b with depot_price := resolveDepotPrice (some s2) }) ∧
      (resolve_button_config (some s2)).map (fun b => b.price_with_depot) =
        DEFAULT_BUTTONS.map (fun b => b.price_with_depot) ∧
      (resolve_button_config (some s2)).length = 9) ∧
    resolve_button_config none = DEFAULT_BUTTONS := by
  have hmem : n ∈ dupsOf [] ((s.items.getD []).filterMap entryName) :=
    mem_dupsOf.mpr (Or.inr hdup)
  have hne : dupsOf [] ((s.items.getD []).filterMap entryName) ≠ [] :=
    List.ne_nil_of_mem hmem
  refine ⟨?_, mem_sortStrings.mpr (mem_dedupFirst.mpr hmem), ?_, by decide⟩
  · show (if dupsOf [] ((s.items.getD []).filterMap entryName) ≠ [] then _ else _) = _
    rw [if_pos hne]
    rfl
  · rintro ⟨i2, dp2, co2, cv2⟩ h
    rcases h with h | h <;>
      (simp only at h; subst h; exact ⟨rfl, rfl, rfl⟩)

/-- Witness for C7: two items both named "X" produce the duplicate
error naming "X". -/
theorem c7_duplicate_error_and_default_fallback_witness :
    validate_and_normalize_buttons
        (some { items := some [.item { name := some "X", price := some (some 1) },
                               .item { name := some "X", price := some (some 2) }] }) =
      .error "Doppelte Produktnamen gefunden: X" :=
  ((c7_duplicate_error_and_default_fallback
      { items := some [.item { name := some "X", price := some (some 1) },
                       .item { name := some "X", price := some (some 2) }] } "X"
      (by decide)).1).trans (congrArg Except.error (by decide))

/-- C8 counterexample: in `resolve_button_config`, an item whose name is
present but empty is kept (not skipped, contrary to the claim), and an
item whose price fails integer coercion is dropped entirely instead of
being priced 0: the items [name "", price 5], [name "A", bad price],
[name "B", price 7] resolve to names ["", "B"], with no "A" at price
0. -/
theorem c8_item_normalization_counterexample :
    (resolve_button_config (some { items := some [
          .item { name := some "", price := some (some 5) },
          .item { name := some "A", price := some none },
          .item { name := some "B", price := some (some 7) }] })).map
      (fun b => (b.name, b.price)) = [("", 5), ("B", 7)] ∧
    "" ∈ (resolve_button_config (some { items := some [
          .item { name := some "", price := some (some 5) },
          .item { name := some "A", price := some none },
          .item { name := some "B", price := some (some 7) }] })).map
      (fun b => b.name) ∧
    "A" ∉ (resolve_button_config (some { items := some [
          .item { name := some "", price := some (some 5) },
          .item { name := some "A", price := some none },
          .item { name := some "B", price := some (some 7) }] })).map
      (fun b => b.name) := by
  decide

/-- C8 (amended): the per-item rules split by function.  In
`resolve_button_config` an item is skipped exactly when its name key is
missing or its price is missing or uncoercible (it is not priced 0); a
present name is kept verbatim, even empty or untrimmed; label defaults
to the name and category to "Standard" when absent.  In
`validate_and_normalize_buttons` an item is skipped iff its resolved
name — name falling back to label, trimmed — is empty; price coerces to
integer with default 0; label defaults to the resolved name; category
defaults to "Standard" when absent. -/
theorem c8_item_normalization_rules :
    (∀ (depot : Int) (i : RawItem),
      (i.name = none ∨ i.price = none ∨ i.price = some none) →
      resolveItem depot (.item i) = none) ∧
    (∀ (depot : Int) (i : RawItem) (n : String) (p : Int),
      i.name = some n → i.price = some (some p) →
      ∃ bc, resolveItem depot (.item i) = some bc ∧ bc.name = n ∧ bc.price = p ∧
        (i.label = none → bc.label = n) ∧
        (i.category = none → bc.category = "Standard")) ∧
    (∀ i : RawItem, entryName (.item i) = none ↔ extractName i = "") ∧
    (∀ (i : RawItem) (n : String),
      ((i.price = none ∨ i.price = some none) → (normItem i n).price = 0) ∧
      (∀ p : Int, i.price = some (some p) → (normItem i n).price = p)) ∧
    (∀ i : RawItem, i.label = none →
      (normItem i (extractName i)).label = extractName i) ∧
    (∀ (i : RawItem) (n : String), i.category = none →
      (normItem i n).category = "Standard") := by
  refine ⟨?_, ?_, ?_, ?_, ?_, ?_⟩
  · intro depot i h
    rcases h with h | h | h
    · simp [resolveItem, h]
    · cases hn : i.name <;> simp [resolveItem, hn, h]
    · cases hn : i.name <;> simp [resolveItem, hn, h]
  · intro depot i n p hn hp
    have hr : resolveItem depot (.item i) = some
        { name := n
          label := (pyOrStr i.label (some n)).getD n
          price := p
          css_class := i.css_class.getD "suess"
          color := pyOrStr i.color
            (pyOrStr (default_color_lookup (i.css_class.getD "")) (some "#1f2a44"))
          category := i.category.getD "Standard"
          has_depot := i.has_depot
          depot_price := depot
          priority := i.priority.getD none } := by
      simp [resolveItem, hn, hp]
    refine ⟨_, hr, rfl, rfl, fun hl => ?_, fun hc => ?_⟩
    · show (pyOrStr i.label (some n)).getD n = n
      rw [hl]
      rfl
    · show i.category.getD "Standard" = "Standard"
      rw [hc]
      rfl
  · intro i
    by_cases h : extractName i = "" <;> simp [entryName, h]
  · intro i n
    constructor
    · intro h
      rcases h with h | h <;> simp [normItem, h]
    · intro p h
      simp [normItem, h]
  · intro i hl
    have h2 : pyStrip (extractName i) = extractName i :=
      pyStrip_idem ((pyOrStr i.name i.label).getD "")
    show (let l := pyStrip ((pyOrStr i.label (some (extractName i))).getD
        (extractName i)); if l = "" then extractName i else l) = extractName i
    rw [hl]
    show (let l := pyStrip (extractName i);
      if l = "" then extractName i else l) = extractName i
    rw [h2]
    simp
  · intro i n hc
    show (pyOrStr i.category (some "Standard")).getD "Standard" = "Standard"
    rw [hc]
    rfl

/-- Witness for C8: an item with no name key is skipped by
`resolve_button_config`. -/
theorem c8_item_normalization_rules_witness :
    resolveItem 2 (.item { name := none }) = none :=
  c8_item_normalization_rules.1 2 { name := none } (Or.inl rfl)

/-- Modelled from the spec's words (claim side, for comparison with the
code's character class): letters including basic Latin-1 diacritics
(A–Z, a–z, and the Latin-1 letter range U+00C0–U+00FF without the
multiplication and division signs), digits, space, and the punctuation
`. , ' & ( ) / -`.  Notably it contains no backslash and does contain
accented letters such as é. -/
def claimedTeamNameChar (c : Char) : Bool :=
  (Char.ofNat 65 ≤ c && c ≤ Char.ofNat 90) ||
  (Char.ofNat 97 ≤ c && c ≤ Char.ofNat 122) ||
  (Char.ofNat 192 ≤ c && c ≤ Char.ofNat 255 &&
    !(c = Char.ofNat 215) && !(c = Char.ofNat 247)) ||
  (Char.ofNat 48 ≤ c && c ≤ Char.ofNat 57) ||
  c = Char.ofNat 32 || c = Char.ofNat 46 || c = Char.ofNat 44 ||
  c = Char.ofNat 39 || c = Char.ofNat 38 || c = Char.ofNat 40 ||
  c = Char.ofNat 41 || c = Char.ofNat 47 || c = Char.ofNat 45

/-- C9 counterexample: the code's pattern accepts a lone backslash
(which is outside the claimed safe set, so the claim's "any name
containing another character is rejected" fails), and rejects "é"
(whose characters all lie in the claimed set of letters with basic
Latin-1 diacritics, so the claim's "accepts" direction fails too). -/
theorem c9_team_name_charset_counterexample :
    (_validate_team_name ((Char.ofNat 92).toString)).1 = true ∧
    claimedTeamNameChar (Char.ofNat 92) = false ∧
    (_validate_team_name "é").1 = false ∧
    ("é".toList.all claimedTeamNameChar) = true ∧
    ("é" : String) ≠ "" := by
  decide

lemma validate_team_name_fst (s : String) :
    (_validate_team_name s).1 = teamNameMatch s := by
  unfold _validate_team_name
  by_cases h : teamNameMatch s = true
  · rw [if_pos h, h]
  · rw [if_neg h]
    cases hb : teamNameMatch s with
    | false => rfl
    | true => exact absurd hb h

lemma teamNameMatch_pyStrip (raw : String) :
    teamNameMatch (pyStrip raw) = true ↔
      (pyStrip raw ≠ "" ∧ (pyStrip raw).toList.all teamNameChar = true) := by
  cases hlast : (pyStrip raw).toList.getLast? with
  | none =>
    have hnil : (pyStrip raw).toList = [] := List.getLast?_eq_none_iff.mp hlast
    have hemp : pyStrip raw = "" := String.ext hnil
    simp [teamNameMatch, hnil, hemp]
  | some c =>
    have hc : isPySpace c = false := pyStripList_getLast? hlast
    have hnl : decide (c = Char.ofNat 10) = false :=
      decide_eq_false (fun he => by rw [he] at hc; exact absurd hc (by decide))
    unfold teamNameMatch
    dsimp only
    rw [hlast]
    have hne : pyStrip raw ≠ "" := by
      intro he
      rw [he] at hlast
      simp at hlast
    simp only [hnl, hne, Bool.false_and, Bool.and_false, Bool.or_false,
      Bool.and_eq_true, decide_eq_true_eq, ne_eq, not_false_eq_true, true_and,
      List.all_eq_true]
    constructor
    · rintro ⟨_, hall⟩
      exact hall
    · intro hall
      refine ⟨fun hd => hne (String.ext hd), hall⟩

/-- C9 (amended): `_validate_team_name` (on the stripped names both
`add_team` and `update_team` feed it) accepts exactly the non-empty
names whose characters all lie in the code's class — ASCII letters and
digits, the German umlauts and ß (only those Latin-1 letters), space,
and `. , ' & ( ) / -` plus the backslash; a rejected name gets the
fixed error text (which names an underscore the pattern does not accept
and omits the backslash it does).  `add_team` creates a team exactly
when the stripped name is non-empty, passes that character test, and is
not a duplicate within the event; `update_team` rejects an invalid new
name, leaving the state unchanged. -/
theorem c9_team_name_validation_charset (raw : String) (eid : Nat) (st : SState) :
    ((_validate_team_name (pyStrip raw)).1 = true ↔
      (pyStrip raw ≠ "" ∧ (pyStrip raw).toList.all teamNameChar = true)) ∧
    ((_validate_team_name (pyStrip raw)).1 = false →
      (_validate_team_name (pyStrip raw)).2 =
        some ("Ungültige Zeichen im Teamnamen. Erlaubt sind: " ++
          teamNameAllowedDescription ++ ".")) ∧
    ((add_team eid st raw).2 = true ↔
      (pyStrip raw ≠ "" ∧ (pyStrip raw).toList.all teamNameChar = true ∧
        st.teams.any (fun t => t.event_id = eid && t.name = pyStrip raw) = false)) ∧
    ((add_team eid st raw).2 = true →
      (add_team eid st raw).1.teams =
        st.teams ++ [{ id := st.next_team_id, event_id := eid,
                       name := pyStrip raw, shots := 0 }]) ∧
    (∀ (st2 : SState) (tid2 : Nat) (raw2 : String) (ns : Option Int),
      pyStrip raw2 ≠ "" → (_validate_team_name (pyStrip raw2)).1 = false →
      update_team eid st2 tid2 raw2 ns = st2) := by
  have h1 : (_validate_team_name (pyStrip raw)).1 = true ↔
      (pyStrip raw ≠ "" ∧ (pyStrip raw).toList.all teamNameChar = true) := by
    rw [validate_team_name_fst]
    exact teamNameMatch_pyStrip raw
  refine ⟨h1, ?_, ?_, ?_, ?_⟩
  · intro h
    unfold _validate_team_name at h ⊢
    by_cases hm : teamNameMatch (pyStrip raw) = true
    · rw [if_pos hm] at h
      exact absurd h (by decide)
    · rw [if_neg hm]
  · unfold add_team
    by_cases he : pyStrip raw = ""
    · rw [if_pos he]
      simp [he]
    · rw [if_neg he]
      by_cases hv : (_validate_team_name (pyStrip raw)).1 = false
      · rw [if_pos hv]
        constructor
        · intro hcontra
          exact absurd hcontra Bool.false_ne_true
        · rintro ⟨hne2, hall, _⟩
          have hvt := h1.mpr ⟨hne2, hall⟩
          rw [hv] at hvt
          exact absurd hvt Bool.false_ne_true
      · rw [if_neg hv]
        have hvt : (_validate_team_name (pyStrip raw)).1 = true := by
          cases hb : (_validate_team_name (pyStrip raw)).1 with
          | false => exact absurd hb hv
          | true => rfl
        by_cases hd : st.teams.any
            (fun t => t.event_id = eid && t.name = pyStrip raw) = true
        · rw [if_pos hd]
          constructor
          · intro hcontra
            exact absurd hcontra Bool.false_ne_true
          · rintro ⟨_, _, hfalse⟩
            exact absurd (hd.symm.trans hfalse) (by decide)
        · rw [if_neg hd]
          have hdf : st.teams.any
              (fun t => t.event_id = eid && t.name = pyStrip raw) = false := by
            cases hb : st.teams.any
                (fun t => t.event_id = eid && t.name = pyStrip raw) with
            | false => rfl
            | true => exact absurd hb hd
          exact ⟨fun _ => ⟨he, (h1.mp hvt).2, hdf⟩, fun _ => rfl⟩
  · unfold add_team
    dsimp only
    split_ifs with hc1 hc2 hc3
    · intro h
      exact h.elim
    · intro h
      exact h.elim
    · intro h
      exact h.elim
    · intro _
      rfl
  · intro st2 tid2 raw2 ns hne2 hval
    unfold update_team
    split
    · rfl
    · dsimp only
      rw [if_pos ⟨hne2, hval⟩]

/-- Witness for C9: adding team " Alpha " (stripped to "Alpha") to an
empty event succeeds and appends the team row. -/
theorem c9_team_name_validation_charset_witness :
    (add_team 7 { teams := [], shot_logs := [], next_team_id := 1 } " Alpha ").1.teams =
      [] ++ [{ id := 1, event_id := 7, name := pyStrip " Alpha ", shots := 0 }] :=
  (c9_team_name_validation_charset " Alpha " 7
    { teams := [], shot_logs := [], next_team_id := 1 }).2.2.2.1 (by decide)

end Kassensystem
